import Mathlib

/-!
Shallow embedding of the tutokenized-simulator task-dispatch subsystem:
the broker store (`src/message_queue_api.py`, class `MessageQueueDB` and the
Flask endpoints) and the worker poller (`src/sol_vm_python_poller.py`,
class `SolVMPythonPoller`).

SQLite tables are modelled as Lean lists of rows; each SQL statement of the
source becomes a pure function on the table state that also reports the
statement's affected-row count (Python's `cursor.rowcount`, which always
refers to the most recently executed statement).  Timestamps that the code
only ever compares are modelled as `Nat` (the monotone `created_at` column)
or as `String` (ISO-format strings compared lexicographically, which is how
SQLite compares the TEXT columns `last_seen`).  `REAL` columns that the code
aggregates (`execution_time`) are modelled as `Rat`.
-/

namespace MsgQueue

/-- Row of the `tasks` table (schema in `init_database`). `created_at` is the
`TIMESTAMP DEFAULT CURRENT_TIMESTAMP` column, modelled as a monotone counter. -/
structure TaskRow where
  id : String
  code : String
  timeout : Int
  timestamp : String
  priority : Int
  client_id : String
  status : String
  vm_id : Option String
  assigned_at : Option String
  created_at : Nat
deriving DecidableEq, Repr

/-- Row of the `results` table. `vm_info`, `system_metrics` and `benchmarks`
hold the `json.dumps` serialisations as opaque strings. -/
structure ResultRow where
  id : String
  task_id : String
  success : Bool
  output : String
  error : String
  execution_time : Rat
  timestamp : String
  code : String
  status : String
  vm_id : Option String
  vm_info : String
  system_metrics : String
  benchmarks : String
deriving DecidableEq, Repr

/-- Row of the `vm_status` table. -/
structure VmRow where
  vm_id : String
  last_seen : String
  status : String
deriving DecidableEq, Repr

/-- The whole SQLite database. -/
structure DB where
  tasks : List TaskRow
  results : List ResultRow
  vms : List VmRow
deriving DecidableEq, Repr

/-- The JSON object `get_next_task` returns to the worker
(keys id, code, timeout, timestamp, priority, client_id). -/
structure TaskInfo where
  id : String
  code : String
  timeout : Int
  timestamp : String
  priority : Int
  client_id : String
deriving DecidableEq, Repr

def taskInfo (t : TaskRow) : TaskInfo :=
  ⟨t.id, t.code, t.timeout, t.timestamp, t.priority, t.client_id⟩

/-- `ORDER BY priority DESC, created_at ASC`: `a` sorts strictly before `b`. -/
def betterTask (a b : TaskRow) : Bool :=
  b.priority < a.priority || (a.priority == b.priority && a.created_at < b.created_at)

/-- One fold step of the `SELECT ... WHERE status = 'pending'
ORDER BY priority DESC, created_at ASC LIMIT 1` query. -/
def pickBetter (acc : Option TaskRow) (t : TaskRow) : Option TaskRow :=
  if t.status == "pending" then
    match acc with
    | none => some t
    | some b => if betterTask t b then some t else some b
  else acc

/-- The `SELECT` of `get_next_task`: the highest-priority pending row,
ties broken by earliest `created_at`. -/
def selectNextPending (tasks : List TaskRow) : Option TaskRow :=
  tasks.foldl pickBetter none

/-- The `UPDATE tasks SET status='assigned', vm_id=?, assigned_at=?
WHERE id = ? AND status = 'pending'` statement; returns the new table and the
statement's rowcount (number of matched rows). -/
def execUpdateAssign (db : DB) (vm now tid : String) : DB × Nat :=
  ({ db with tasks := db.tasks.map fun t =>
      if t.id == tid && t.status == "pending" then
        { t with status := "assigned", vm_id := some vm, assigned_at := some now }
      else t },
   (db.tasks.filter fun t => t.id == tid && t.status == "pending").length)

/-- The `INSERT OR REPLACE INTO vm_status (vm_id, last_seen, status)
VALUES (?, ?, 'active')` statement; its rowcount is always 1. -/
def execInsertVmStatus (db : DB) (vm now : String) : DB × Nat :=
  ({ db with vms := (db.vms.filter fun v => !(v.vm_id == vm)) ++ [⟨vm, now, "active"⟩] }, 1)

/-- The final `if cursor.rowcount > 0` of `get_next_task`, applied to the row
fetched by the SELECT.  Note that in the source the last statement executed on
the cursor before this check is the `vm_status` INSERT, not the UPDATE. -/
def claimReturn (row : TaskRow) (lastRowcount : Nat) : Option TaskInfo :=
  if lastRowcount > 0 then some (taskInfo row) else none

/-- `MessageQueueDB.get_next_task`, run without interference: SELECT the best
pending row, conditionally UPDATE it, upsert the `vm_status` row, then return
the row iff `cursor.rowcount > 0` (the rowcount of the last statement, i.e.
the vm_status INSERT). -/
def get_next_task (db : DB) (vm now : String) : Option TaskInfo × DB :=
  match selectNextPending db.tasks with
  | none => (none, db)
  | some row =>
      let s1 := execUpdateAssign db vm now row.id
      let s2 := execInsertVmStatus s1.1 vm now
      (claimReturn row s2.2, s2.1)

/-- The write portion of `get_next_task` for one caller that has already run
its SELECT (fetched row `sel`): the conditional UPDATE, the vm_status INSERT,
and the `cursor.rowcount > 0` return check.  Also exposes the UPDATE's own
rowcount so theorems can observe whether the conditional update matched. -/
def claimWritePhase (db : DB) (vm now : String) (sel : Option TaskRow) :
    DB × Option TaskInfo × Nat :=
  match sel with
  | none => (db, none, 0)
  | some row =>
      let s1 := execUpdateAssign db vm now row.id
      let s2 := execInsertVmStatus s1.1 vm now
      (s2.1, claimReturn row s2.2, s1.2)

/-- Two concurrent callers of `get_next_task` interleaved as: both run their
SELECT against the committed state `db0`, then caller A's write transaction
commits, then caller B's write transaction commits.  Returns A's reply, B's
reply, the rowcount of B's conditional UPDATE, and the final database. -/
def twoClaimersRace (db0 : DB) (vmA vmB nowA nowB : String) :
    Option TaskInfo × Option TaskInfo × Nat × DB :=
  let selA := selectNextPending db0.tasks
  let selB := selectNextPending db0.tasks
  let wA := claimWritePhase db0 vmA nowA selA
  let wB := claimWritePhase wA.1 vmB nowB selB
  (wA.2.1, wB.2.1, wB.2.2, wB.1)

/-- Python truthiness of the `vm_id` argument of `update_task_status`
(`if vm_id:` — both `None` and the empty string are falsy). -/
def vmIdTruthy : Option String → Bool
  | none => false
  | some s => !(s == "")

/-- `MessageQueueDB.update_task_status`: one of two UPDATE statements depending
on the truthiness of `vm_id`; returns the new database and `rowcount > 0`. -/
def update_task_status (db : DB) (task_id status : String) (vm_id : Option String) :
    DB × Bool :=
  if vmIdTruthy vm_id then
    ({ db with tasks := db.tasks.map fun t =>
        if t.id == task_id then { t with status := status, vm_id := vm_id } else t },
     (db.tasks.filter fun t => t.id == task_id).length > 0)
  else
    ({ db with tasks := db.tasks.map fun t =>
        if t.id == task_id then { t with status := status } else t },
     (db.tasks.filter fun t => t.id == task_id).length > 0)

/-- The JSON body accepted by `POST /results`.  The broker requires
`id`, `success`, `timestamp`, `status`; the rest are optional with the
defaults that `add_result` supplies via `.get`.  `vm_info`,
`system_metrics` and `benchmarks` are carried as their `json.dumps`
serialisations, defaulting to the dump of the empty dict. -/
structure ResultSub where
  id : String
  success : Bool
  timestamp : String
  status : String
  output : Option String
  error : Option String
  execution_time : Option Rat
  code : Option String
  vm_id : Option String
  vm_info : Option String
  system_metrics : Option String
  benchmarks : Option String
deriving DecidableEq, Repr

/-- The `results` row that `add_result` writes for submission `r`
(note the source stores `task_id` equal to the result `id`). -/
def mkResultRow (r : ResultSub) : ResultRow where
  id := r.id
  task_id := r.id
  success := r.success
  output := r.output.getD ""
  error := r.error.getD ""
  execution_time := r.execution_time.getD 0
  timestamp := r.timestamp
  code := r.code.getD ""
  status := r.status
  vm_id := r.vm_id
  vm_info := r.vm_info.getD "\x7b\x7d"
  system_metrics := r.system_metrics.getD "\x7b\x7d"
  benchmarks := r.benchmarks.getD "\x7b\x7d"

/-- `MessageQueueDB.add_result`: `INSERT OR REPLACE INTO results` (the primary
key `id` replaces any existing row with the same id) followed, in the same
transaction, by `UPDATE tasks SET status = ? WHERE id = ?`.  The source
returns `True` whenever no exception occurs — in particular it never checks
that the referenced task exists. -/
def add_result (db : DB) (r : ResultSub) : DB × Bool :=
  ({ db with
      results := (db.results.filter fun x => !(x.id == r.id)) ++ [mkResultRow r],
      tasks := db.tasks.map fun t =>
        if t.id == r.id then { t with status := r.status } else t },
   true)

/-- `MessageQueueDB.get_result`: `SELECT * FROM results WHERE task_id = ?`
followed by `fetchone`. -/
def get_result_db (db : DB) (task_id : String) : Option ResultRow :=
  (db.results.filter fun r => r.task_id == task_id).head?

/-- The `POST /results` handler `submit_result` (after the API-key check):
validates that the four required fields are present, then calls `add_result`
and returns the HTTP status code together with the new database.  Field
presence is modelled by an `Option ResultSub` request (a request missing a
required field fails validation with 400). -/
def submit_result_ep (db : DB) (req : Option ResultSub) : Nat × DB :=
  match req with
  | none => (400, db)
  | some r =>
      let s := add_result db r
      (if s.2 then 201 else 500, s.1)

/-- The aggregate structure returned by `get_queue_stats`.  The final
`round(avg, 2)` display step on the IEEE float is abstracted: the average is
kept as the exact rational. -/
structure QueueStats where
  pending_tasks : Nat
  assigned_tasks : Nat
  running_tasks : Nat
  completed_tasks : Nat
  failed_tasks : Nat
  active_vms : Nat
  avg_execution_time : Rat
deriving DecidableEq, Repr

/-- `MessageQueueDB.get_queue_stats`: per-status task counts
(`GROUP BY status`), workers with `last_seen > five_minutes_ago`, and
`AVG(execution_time) FROM results WHERE execution_time > 0` (NULL, i.e. no
qualifying rows, coerced to 0 by `or 0`). -/
def get_queue_stats (db : DB) (five_minutes_ago : String) : QueueStats :=
  let countStatus := fun (s : String) => (db.tasks.filter fun t => t.status == s).length
  let positive := db.results.filter fun r => 0 < r.execution_time
  { pending_tasks := countStatus "pending"
    assigned_tasks := countStatus "assigned"
    running_tasks := countStatus "running"
    completed_tasks := countStatus "completed"
    failed_tasks := countStatus "failed"
    active_vms := (db.vms.filter fun v => five_minutes_ago < v.last_seen).length
    avg_execution_time :=
      if positive.length = 0 then 0
      else (positive.map fun r => r.execution_time).sum / positive.length }

/-- Statuses the cleanup sweeper treats as terminal
(`status IN ('completed', 'failed', 'timeout')`). -/
def isTerminal (s : String) : Bool :=
  s == "completed" || s == "failed" || s == "timeout"

/-- `MessageQueueDB.cleanup_old_data` with the two cutoffs passed in:
`cutoff` is `now - MAX_TASK_AGE_HOURS` (compared against the tasks'
`created_at`, modelled on the same monotone clock) and `vmCutoff` is
`now - 1 hour` (compared against `vm_status.last_seen`). Results of old
terminal tasks are deleted first, then the tasks, then stale vm rows. -/
def cleanup_old_data (db : DB) (cutoff : Nat) (vmCutoff : String) : DB :=
  let oldIds := (db.tasks.filter fun t => isTerminal t.status && t.created_at < cutoff).map
    fun t => t.id
  { tasks := db.tasks.filter fun t => !(isTerminal t.status && t.created_at < cutoff)
    results := db.results.filter fun r => !(decide (r.task_id ∈ oldIds))
    vms := db.vms.filter fun v => !(v.last_seen < vmCutoff) }

/-! ### JSON values, modelling the payloads handled by Python's `json` module

The executed code's stdout may embed `GIF_OUTPUT:<json>` / `VIDEO_OUTPUT:<json>`
marker lines.  `Json` models the decoded values and `json_loads` models
`json.loads` on the subset these payloads use (objects, arrays, unescaped
strings, integers, booleans, null); inputs outside the subset parse to `none`,
which the call sites treat exactly like a `json` exception. -/

inductive Json where
  | null
  | bool (b : Bool)
  | num (n : Int)
  | str (s : String)
  | arr (elems : List Json)
  | obj (entries : List (String × Json))

def jsonWs (c : Char) : Bool :=
  c == ' ' || c == '\t' || c == '\n' || c == '\r'

def skipWs : List Char → List Char
  | [] => []
  | c :: rest => if jsonWs c then skipWs rest else c :: rest

def parseStringBody (acc : List Char) : List Char → Option (String × List Char)
  | [] => none
  | c :: rest =>
    if c == '\"' then some (String.mk acc.reverse, rest)
    else if c == '\\' then none
    else parseStringBody (c :: acc) rest

def parseDigits (acc : Nat) (consumed : Bool) : List Char → Option (Nat × List Char)
  | [] => if consumed then some (acc, []) else none
  | c :: rest =>
    if c.isDigit then parseDigits (acc * 10 + (c.toNat - 48)) true rest
    else if consumed then some (acc, c :: rest) else none

/-- `true` when the character would continue a JSON number beyond the integer
subset modelled here (floats and exponents parse to `none`). -/
def numCont (c : Char) : Bool := c == '.' || c == 'e' || c == 'E'

def parseIntLit : List Char → Option (Int × List Char)
  | '-' :: rest =>
    match parseDigits 0 false rest with
    | none => none
    | some (n, rem) =>
      match rem with
      | [] => some (-(n : Int), [])
      | c :: _ => if numCont c then none else some (-(n : Int), rem)
  | cs =>
    match parseDigits 0 false cs with
    | none => none
    | some (n, rem) =>
      match rem with
      | [] => some ((n : Int), [])
      | c :: _ => if numCont c then none else some ((n : Int), rem)

def stripPre : List Char → List Char → Option (List Char)
  | [], cs => some cs
  | _, [] => none
  | p :: ps, c :: cs => if p == c then stripPre ps cs else none

def dictGet (kvs : List (String × Json)) (k : String) : Option Json :=
  (kvs.find? fun p => p.1 == k).map fun p => p.2

def dictSet (kvs : List (String × Json)) (k : String) (v : Json) : List (String × Json) :=
  if (kvs.find? fun p => p.1 == k).isSome then
    kvs.map fun p => if p.1 == k then (k, v) else p
  else kvs ++ [(k, v)]

mutual

def parseValue : Nat → List Char → Option (Json × List Char)
  | 0, _ => none
  | Nat.succ f, cs =>
    match skipWs cs with
    | [] => none
    | c :: rest =>
      if c == '\"' then
        match parseStringBody [] rest with
        | some (s, rem) => some (Json.str s, rem)
        | none => none
      else if c == '\x7b' then
        match skipWs rest with
        | '\x7d' :: rem => some (Json.obj [], rem)
        | other => parseMembers f other []
      else if c == '[' then
        match skipWs rest with
        | ']' :: rem => some (Json.arr [], rem)
        | other => parseElems f other []
      else
        match stripPre ['t', 'r', 'u', 'e'] (c :: rest) with
        | some rem => some (Json.bool true, rem)
        | none =>
          match stripPre ['f', 'a', 'l', 's', 'e'] (c :: rest) with
          | some rem => some (Json.bool false, rem)
          | none =>
            match stripPre ['n', 'u', 'l', 'l'] (c :: rest) with
            | some rem => some (Json.null, rem)
            | none =>
              match parseIntLit (c :: rest) with
              | some (n, rem) => some (Json.num n, rem)
              | none => none

def parseMembers : Nat → List Char → List (String × Json) → Option (Json × List Char)
  | 0, _, _ => none
  | Nat.succ f, cs, acc =>
    match skipWs cs with
    | '\"' :: rest =>
      match parseStringBody [] rest with
      | none => none
      | some (k, rem) =>
        match skipWs rem with
        | ':' :: rem2 =>
          match parseValue f rem2 with
          | none => none
          | some (v, rem3) =>
            match skipWs rem3 with
            | ',' :: rem4 => parseMembers f rem4 (dictSet acc k v)
            | '\x7d' :: rem4 => some (Json.obj (dictSet acc k v), rem4)
            | _ => none
        | _ => none
    | _ => none

def parseElems : Nat → List Char → List Json → Option (Json × List Char)
  | 0, _, _ => none
  | Nat.succ f, cs, acc =>
    match parseValue f cs with
    | none => none
    | some (v, rem) =>
      match skipWs rem with
      | ',' :: rem2 => parseElems f rem2 (acc ++ [v])
      | ']' :: rem2 => some (Json.arr (acc ++ [v]), rem2)
      | _ => none

end

/-- `json.loads`: parse one value and require only trailing whitespace. -/
def json_loads (s : String) : Option Json :=
  match parseValue (2 * s.length + 8) s.toList with
  | some (j, rest) => if skipWs rest = [] then some j else none
  | none => none

/-- Python truthiness of a decoded JSON value. -/
def jTruthy : Json → Bool
  | .null => false
  | .bool b => b
  | .num n => !(n == 0)
  | .str s => !(s == "")
  | .arr xs => !xs.isEmpty
  | .obj kvs => !kvs.isEmpty

def optTruthy : Option Json → Bool
  | none => false
  | some j => jTruthy j

/-- Python `a or b` on two `dict.get` results (`None` for a missing key). -/
def pyOr (a b : Option Json) : Option Json :=
  if optTruthy a then a else b

/-! ### The broker's `GIF_OUTPUT` regex and `GET /results/<task_id>` -/

/-- Group scan for `\x7b.*?\x7d(?:\n|$)` once the opening brace has been
consumed: `.` does not match a newline, the non-greedy group ends at the first
closing brace that is followed by a newline or the end of the string. -/
def groupScan (acc : List Char) : List Char → Option (List Char)
  | [] => none
  | c :: rest =>
    if c == '\n' then none
    else if c == '\x7d' then
      match rest with
      | [] => some (acc ++ [c])
      | r :: _ => if r == '\n' then some (acc ++ [c]) else groupScan (acc ++ [c]) rest
    else groupScan (acc ++ [c]) rest

/-- `re.search(r'GIF_OUTPUT:(\x7b.*?\x7d)(?:\n|$)', output)`: the leftmost
start position wins; at each position the literal `GIF_OUTPUT:` and an opening
brace must match, then `groupScan` finds the non-greedy group.  Returns the
captured group (`match.group(1)`). -/
def gifSearch : List Char → Option String
  | [] => none
  | c :: rest =>
    match stripPre ['G', 'I', 'F', '_', 'O', 'U', 'T', 'P', 'U', 'T', ':'] (c :: rest) with
    | some after =>
      (match after with
       | b :: r =>
         if b == '\x7b' then
           match groupScan [b] r with
           | some g => some (String.mk g)
           | none => gifSearch rest
         else gifSearch rest
       | [] => gifSearch rest)
    | none => gifSearch rest

/-- The worker-side filesystem: file path ↦ byte contents.  `os.path.exists`
is membership, `open(...).read()` is lookup. -/
abbrev FileSys := List (String × List Nat)

def fsRead (fs : FileSys) (name : String) : Option (List Nat) :=
  (fs.find? fun p => p.1 == name).map fun p => p.2

def b64Alphabet : List Char :=
  "ABCDEFGHIJKLMNOPQRSTUVWXYZabcdefghijklmnopqrstuvwxyz0123456789+/".toList

def b64Char (n : Nat) : Char := b64Alphabet.getD n 'A'

/-- `base64.b64encode(...).decode('utf-8')` on a byte list. -/
def base64Encode : List Nat → String
  | [] => ""
  | [a] =>
    String.mk [b64Char (a / 4 % 64), b64Char (a % 4 * 16), '=', '=']
  | [a, b] =>
    String.mk [b64Char (a / 4 % 64), b64Char (a % 4 * 16 + b / 16 % 16),
               b64Char (b % 16 * 4), '=']
  | a :: b :: c :: rest =>
    String.mk [b64Char (a / 4 % 64), b64Char (a % 4 * 16 + b / 16 % 16),
               b64Char (b % 16 * 4 + c / 64 % 4), b64Char (c % 64)] ++ base64Encode rest

/-- The GIF-bytestream injection block of the `get_result` endpoint: search
`output` for the marker, `json.loads` the group, read
`gif_filename`/`gif_file`, and attach `video_data` when a named gif file
exists (adding `gif_data`/`gif_bytestream`) or when the payload already
carries `gif_data`.  Any exception on the way (malformed JSON, a payload that
is not an object, a non-string filename) is caught and yields no field. -/
def brokerVideoData (fs : FileSys) (output : String) : Option Json :=
  match gifSearch output.toList with
  | none => none
  | some g =>
    match json_loads g with
    | none => none
    | some gif_info =>
      match gif_info with
      | .obj kvs =>
        let fname := pyOr (dictGet kvs "gif_filename") (dictGet kvs "gif_file")
        if optTruthy fname then
          match fname with
          | some (.str s) =>
            (match fsRead fs s with
             | some bytes =>
               some (Json.obj (dictSet (dictSet kvs "gif_data"
                 (.str (base64Encode bytes))) "gif_bytestream"
                 (.arr (bytes.map fun b => Json.num b))))
             | none =>
               if optTruthy (dictGet kvs "gif_data") then some (Json.obj kvs) else none)
          | _ => none
        else
          if optTruthy (dictGet kvs "gif_data") then some (Json.obj kvs) else none
      | _ => none

/-- The JSON object returned by `GET /results/<task_id>`: the stored row's
fields echoed unchanged (`output` verbatim) plus the optionally injected
`video_data`. -/
structure ResultResponse where
  row : ResultRow
  video_data : Option Json

/-- The `get_result` endpoint (after the API-key check): `none` models the
404 branch. -/
def get_result_ep (db : DB) (fs : FileSys) (task_id : String) : Option ResultResponse :=
  (get_result_db db task_id).map fun row =>
    { row := row, video_data := brokerVideoData fs row.output }

/-! ### The worker poller, `SolVMPythonPoller` -/

/-- Whitespace removed by Python's `str.strip()` (the ASCII subset the
outputs can contain). -/
def pyWsChar (c : Char) : Bool :=
  c == ' ' || c == '\t' || c == '\n' || c == '\r'

/-- Python `str.strip()`. -/
def stripChars (cs : List Char) : List Char :=
  ((cs.dropWhile pyWsChar).reverse.dropWhile pyWsChar).reverse

def splitLinesAux (cur : List Char) : List Char → List (List Char)
  | [] => [cur.reverse]
  | c :: rest =>
    if c == '\n' then cur.reverse :: splitLinesAux [] rest
    else splitLinesAux (c :: cur) rest

/-- Python `str.split('\n')`. -/
def splitLines (cs : List Char) : List (List Char) :=
  splitLinesAux [] cs

/-- One line-iteration of `_parse_video_output`'s scan.  `none` models an
exception escaping the line's handling (malformed JSON, a non-object payload
fed to `dict.update`, or the `KeyError` when a `gif_file` payload lacks
`gif_filename`), which aborts the scan; the surrounding `try/except` then
returns whatever was accumulated.  `stripPre` models the
`line.startswith(marker)` test plus `line.split(marker, 1)[1]`. -/
def pollerLineStep (fs : FileSys) (acc : List (String × Json)) (line : List Char) :
    Option (List (String × Json)) :=
  let l := stripChars line
  match stripPre "VIDEO_OUTPUT:".toList l with
  | some rest =>
    (match json_loads (String.mk (stripChars rest)) with
     | some (.obj kvs) => some (kvs.foldl (fun a p => dictSet a p.1 p.2) acc)
     | some _ => none
     | none => none)
  | none =>
  match stripPre "GIF_OUTPUT:".toList l with
  | some rest =>
    (match json_loads (String.mk (stripChars rest)) with
     | none => none
     | some (.obj kvs) =>
       if (dictGet kvs "gif_file").isSome then
         match dictGet kvs "gif_filename" with
         | none => none
         | some _ =>
           let kvs2 :=
             match dictGet kvs "gif_file" with
             | some (.str fpath) =>
               (match fsRead fs fpath with
                | some bytes =>
                  let b64 := base64Encode bytes
                  dictSet (dictSet kvs "gif_data" (.str b64)) "gif_url"
                    (.str ("data:image/gif;base64," ++ b64))
                | none => kvs)
             | _ => kvs
           some (kvs2.foldl (fun a p => dictSet a p.1 p.2) acc)
       else
         some (kvs.foldl (fun a p => dictSet a p.1 p.2) acc)
     | some _ => none)
  | none => some acc

def parse_video_output_go (fs : FileSys) (acc : List (String × Json)) :
    List (List Char) → List (String × Json)
  | [] => acc
  | line :: rest =>
    match pollerLineStep fs acc line with
    | none => acc
    | some acc2 => parse_video_output_go fs acc2 rest

/-- `SolVMPythonPoller._parse_video_output`: split the captured stdout on
newlines and fold the marker lines into the `video_data` dict, aborting
silently on the first exception. -/
def parse_video_output (fs : FileSys) (output : String) : List (String × Json) :=
  parse_video_output_go fs [] (splitLines output.toList)

/-- What happened to the child process that `subprocess.run` spawned:
it either finished with an exit code and captured streams, or exceeded the
wall-clock `timeout` (raising `subprocess.TimeoutExpired`, which kills it). -/
inductive ExecOutcome where
  | finished (returncode : Int) (stdout stderr : String)
  | timedOut
deriving DecidableEq, Repr

/-- The dict `_execute_python_code` returns. -/
structure PyExecResult where
  success : Bool
  output : String
  error : String
  return_code : Int
deriving DecidableEq, Repr

/-- `SolVMPythonPoller._execute_python_code`: success iff the exit code is 0;
on `TimeoutExpired` a failure record with the timeout message and return
code -1. -/
def execute_python_code (timeout : Int) (outcome : ExecOutcome) : PyExecResult :=
  match outcome with
  | .finished rc out err => ⟨rc == 0, out, err, rc⟩
  | .timedOut =>
      ⟨false, "", "Execution timed out after " ++ toString timeout ++ " seconds", -1⟩

/-- The result dict `_execute_task` builds and the poller submits.  The
wall-clock / environment fields (`execution_time`, `timestamp`, `vm_info`,
`system_metrics`, `benchmarks`) are measured from the machine, not computed
from the task, and are not modelled. -/
structure PollerResult where
  id : String
  success : Bool
  output : String
  error : String
  status : String
  vm_id : String
  video_data : List (String × Json)

/-- `SolVMPythonPoller._execute_task` (the non-exception path): run the code,
parse video markers from the output of a successful run, and report status
`completed` when the child succeeded and `failed` otherwise. -/
def execute_task (vm_id : String) (fs : FileSys) (task : TaskInfo)
    (outcome : ExecOutcome) : PollerResult :=
  let er := execute_python_code task.timeout outcome
  { id := task.id
    success := er.success
    output := er.output
    error := er.error
    status := if er.success then "completed" else "failed"
    vm_id := vm_id
    video_data :=
      if er.success && !(er.output == "") then parse_video_output fs er.output else [] }

/-- Trace of one `_submit_result` call: how many POST attempts ran, the sleeps
performed before each retry (in order), and whether the call returned normally
(`ok = true`) or raised after exhausting the budget. -/
structure SubmitTrace where
  attempts : Nat
  delays : List Nat
  ok : Bool
deriving DecidableEq, Repr

/-- The `for attempt in range(self.max_retries)` loop of `_submit_result`.
`resp attempt` tells whether the POST of that attempt returned HTTP 200/201
(`true`) — any other status or a transport exception raises and is caught by
the loop's `except`.  `fuel` is the number of remaining iterations
(`max_retries - attempt`); when more than one remains, a failed attempt
sleeps `retry_delay * (attempt + 1)` and retries, otherwise it re-raises. -/
def submitLoop (retry_delay : Nat) (resp : Nat → Bool) : Nat → Nat → SubmitTrace
  | _, 0 => ⟨0, [], true⟩
  | attempt, Nat.succ fuel =>
    if resp attempt then ⟨1, [], true⟩
    else if fuel = 0 then ⟨1, [], false⟩
    else
      let t := submitLoop retry_delay resp (attempt + 1) fuel
      ⟨t.attempts + 1, retry_delay * (attempt + 1) :: t.delays, t.ok⟩

/-- `SolVMPythonPoller._submit_result`.  (With `max_retries = 0` the loop body
never runs and the Python function falls through returning `None`, i.e. no
exception: trace `⟨0, [], true⟩`.) -/
def submit_result (max_retries retry_delay : Nat) (resp : Nat → Bool) : SubmitTrace :=
  submitLoop retry_delay resp 0 max_retries

/-- The poller state that `_poll_loop` mutates. -/
structure PollerState where
  is_polling : Bool
  current_task : Option String
deriving DecidableEq, Repr

/-- One iteration of `_poll_loop` that claimed `task` and whose
`_submit_result` call produced trace `tr`: on a normal return the task is
cleared; when `_submit_result` raises after exhausting its retries the
exception is caught at the loop boundary, a best-effort error result is
submitted, and the task is cleared.  Either way `is_polling` is untouched, so
the worker keeps polling. -/
def poll_iteration (st : PollerState) (task : TaskInfo) (tr : SubmitTrace) : PollerState :=
  if tr.ok then
    { is_polling := st.is_polling, current_task := none }
  else
    -- except-branch: log, submit error result (best effort), clear the task
    { is_polling := st.is_polling, current_task := none }

/-! ### Specification-side definitions, for comparison with the code

`specAvgCompleted` follows the spec's words for the `Stats()` average
("mean execution_time over completed results"); the code's aggregate is
compared against it. -/

/-- Modelled from the spec: "mean execution_time over completed results"
(zero on an empty selection). -/
def specAvgCompleted (db : DB) : Rat :=
  let completed := db.results.filter fun r => r.status == "completed"
  if completed.length = 0 then 0
  else (completed.map fun r => r.execution_time).sum / completed.length

/-- Per-status task count, stated independently of `get_queue_stats`. -/
def statusCount (db : DB) (s : String) : Nat :=
  db.tasks.countP fun t => t.status == s

/-- Workers whose `last_seen` is within the liveness window. -/
def activeWorkerCount (db : DB) (cut : String) : Nat :=
  db.vms.countP fun v => cut < v.last_seen

/-- The aggregate the code actually averages over: results with a positive
`execution_time`, regardless of status. -/
def specAvgPositive (db : DB) : Rat :=
  let positive := db.results.filter fun r => 0 < r.execution_time
  if positive.length = 0 then 0
  else (positive.map fun r => r.execution_time).sum / positive.length

/-! ### Concrete fixtures used by the theorems -/

/-- A freshly submitted task as `add_task` stores it. -/
def pendingTask (id : String) (pr : Int) (ca : Nat) : TaskRow where
  id := id
  code := "print(1+1)"
  timeout := 10
  timestamp := "ts"
  priority := pr
  client_id := "c1"
  status := "pending"
  vm_id := none
  assigned_at := none
  created_at := ca

/-- One pending task, the race fixture for `C1`. -/
def c1db : DB := ⟨[pendingTask "t1" 1 0], [], []⟩

/-- Three tasks A, B, C with priorities 1, 5, 3 submitted in that order. -/
def c2db3 : DB := ⟨[pendingTask "A" 1 0, pendingTask "B" 5 1, pendingTask "C" 3 2], [], []⟩

/-- Two tasks of equal priority submitted D first, E second. -/
def c2fifo : DB := ⟨[pendingTask "D" 1 0, pendingTask "E" 1 1], [], []⟩

/-- A stored result row whose output is `out`. -/
def storedResult (tid out status : String) (et : Rat) : ResultRow where
  id := tid
  task_id := tid
  success := status == "completed"
  output := out
  error := ""
  execution_time := et
  timestamp := "ts"
  code := ""
  status := status
  vm_id := some "w1"
  vm_info := "\x7b\x7d"
  system_metrics := "\x7b\x7d"
  benchmarks := "\x7b\x7d"

/-- The spec's marker-extraction example output. -/
def c6out : String := "hello\nGIF_OUTPUT:\x7b\"a\":1\x7d\nbye"

/-- Output whose marker is followed by malformed JSON. -/
def c6badOut : String := "hello\nGIF_OUTPUT:\x7boops\nbye"

/-- Output with two marker lines carrying different payloads. -/
def c6doubleOut : String :=
  "x\nGIF_OUTPUT:\x7b\"gif_data\":\"X\"\x7d\nGIF_OUTPUT:\x7b\"gif_data\":\"Y\"\x7d\n"

/-- A store holding one result whose output is `out`. -/
def c6db (out : String) : DB := ⟨[], [storedResult "t6" out "completed" 1], []⟩

/-- A result submission referencing task id `ghost` (no such task exists). -/
def c5req : ResultSub where
  id := "ghost"
  success := true
  timestamp := "ts"
  status := "completed"
  output := some "2\n"
  error := none
  execution_time := some 1
  code := none
  vm_id := some "w1"
  vm_info := none
  system_metrics := none
  benchmarks := none

/-- Store with one failed result carrying a positive execution time and no
completed result at all. -/
def c9db : DB := ⟨[], [storedResult "t9" "" "failed" 2], []⟩

/-- The empty store. -/
def emptyDB : DB := ⟨[], [], []⟩

/-- Cleanup fixture: an old completed task with its result, plus an equally
old pending task. -/
def c7old : TaskRow := { pendingTask "old" 1 0 with status := "completed" }

def c7pending : TaskRow := pendingTask "keep" 1 0

def c7db : DB := ⟨[c7old, c7pending], [storedResult "old" "out" "completed" 1], []⟩

/-- Submission fixtures for `C3`: the task `t3` and two successive results
for it. -/
def c3task : TaskRow := pendingTask "t3" 1 0

def c3sub (status : String) (et : Rat) : ResultSub where
  id := "t3"
  success := status == "completed"
  timestamp := "ts"
  status := status
  output := some "out"
  error := none
  execution_time := some et
  code := none
  vm_id := some "w1"
  vm_info := none
  system_metrics := none
  benchmarks := none

def c3db : DB := ⟨[c3task], [], []⟩

/-- Task fixture for the poller (`C4`). -/
def c4task : TaskInfo := ⟨"t4", "while True: pass", 30, "ts", 1, "c1"⟩

/-! ## Theorems -/

/-- C1: the exactly-once-claim property fails on the code.  With a single
pending task `t1` and two callers of `get_next_task` interleaved as
select/select/write/write, caller A's conditional UPDATE wins, caller B's
conditional UPDATE matches no row (its rowcount is 0) — yet BOTH callers
receive task `t1`, because the `cursor.rowcount > 0` return check runs after
the `vm_status` INSERT OR REPLACE and therefore inspects that statement's
rowcount (always 1), not the UPDATE's.  The final store shows `t1` assigned
to caller A only, so caller B's reply is a duplicate claim of a task it does
not own. -/
theorem c1_get_next_task_double_claim :
    (twoClaimersRace c1db "vmA" "vmB" "n1" "n2").1 = some (taskInfo (pendingTask "t1" 1 0)) ∧
    (twoClaimersRace c1db "vmA" "vmB" "n1" "n2").2.1 = some (taskInfo (pendingTask "t1" 1 0)) ∧
    (twoClaimersRace c1db "vmA" "vmB" "n1" "n2").2.2.1 = 0 ∧
    (twoClaimersRace c1db "vmA" "vmB" "n1" "n2").2.2.2.tasks =
      [{ pendingTask "t1" 1 0 with
          status := "assigned", vm_id := some "vmA", assigned_at := some "n1" }] := by
  decide

/-- C4 (counterexample): the claim says a wall-clock timeout is reported with
status `timeout`; the code reports status `failed`.  On the timeout outcome
the poller's result has `success = false` and the timeout error message, but
its status is the string `failed`, not `timeout`. -/
theorem c4_timeout_status_counterexample :
    (execute_task "w1" [] c4task .timedOut).success = false ∧
    (execute_task "w1" [] c4task .timedOut).error =
      "Execution timed out after 30 seconds" ∧
    (execute_task "w1" [] c4task .timedOut).status = "failed" ∧
    (execute_task "w1" [] c4task .timedOut).status ≠ "timeout" := by
  refine ⟨rfl, rfl, rfl, ?_⟩
  decide

/-- C4 (amended): when the executed code exceeds the wall-clock timeout the
worker terminates the child (`subprocess.TimeoutExpired`) and reports
`success = false` with the error text `Execution timed out after N seconds`
and status `failed` — the same status a non-zero exit code receives; the
poller never produces a result with status `timeout`, so the two failure
kinds are distinguished only by the error text. -/
theorem c4_timeout_reports_failed :
    (∀ (vm : String) (fs : FileSys) (task : TaskInfo),
      (execute_task vm fs task .timedOut).success = false ∧
      (execute_task vm fs task .timedOut).status = "failed" ∧
      (execute_task vm fs task .timedOut).error =
        "Execution timed out after " ++ toString task.timeout ++ " seconds") ∧
    (∀ (vm : String) (fs : FileSys) (task : TaskInfo) (rc : Int) (out err : String),
      rc ≠ 0 →
      (execute_task vm fs task (.finished rc out err)).success = false ∧
      (execute_task vm fs task (.finished rc out err)).status = "failed") := by
  constructor
  · intro vm fs task
    exact ⟨rfl, rfl, rfl⟩
  · intro vm fs task rc out err hrc
    have hb : (rc == 0) = false := by simpa using hrc
    constructor
    · simp [execute_task, execute_python_code, hb]
    · simp [execute_task, execute_python_code, hb]

/-- C4 (witness for the amended theorem): the second conjunct applied at a
concrete non-zero exit code. -/
theorem c4_timeout_reports_failed_witness :
    (execute_task "w1" [] c4task (.finished 2 "" "boom")).success = false ∧
    (execute_task "w1" [] c4task (.finished 2 "" "boom")).status = "failed" :=
  c4_timeout_reports_failed.2 "w1" [] c4task 2 "" "boom" (by decide)

/-- C5: the claim says submitting a result for a nonexistent task fails with
NotFound and stores nothing; the code has no existence check.  On an empty
store, `POST /results` for task id `ghost` answers 201 and inserts a result
row whose `task_id` is `ghost` even though the tasks table is empty — the
declared (but unenforced) foreign key `results.task_id REFERENCES tasks(id)`
is violated. -/
theorem c5_orphan_result_stored :
    (submit_result_ep emptyDB (some c5req)).1 = 201 ∧
    (submit_result_ep emptyDB (some c5req)).2.results = [mkResultRow c5req] ∧
    (mkResultRow c5req).task_id = "ghost" ∧
    (submit_result_ep emptyDB (some c5req)).2.tasks = [] := by
  refine ⟨rfl, rfl, rfl, rfl⟩

/-- C10: when `update_task_status` is invoked with `vm_id` absent/None or
equal to the empty string (both falsy under `if vm_id:`), the matching task
keeps its `vm_id` and every column other than `status`; unmatched tasks and
the other tables are untouched; and a non-empty `vm_id` does overwrite the
column. -/
theorem c10_update_status_frame :
    ∀ (db : DB) (task_id status : String) (vm : Option String),
      vm = none ∨ vm = some "" →
      ((∀ t ∈ db.tasks, t.id = task_id →
          { t with status := status } ∈ (update_task_status db task_id status vm).1.tasks) ∧
       (∀ t ∈ db.tasks, t.id ≠ task_id →
          t ∈ (update_task_status db task_id status vm).1.tasks) ∧
       (update_task_status db task_id status vm).1.results = db.results ∧
       (update_task_status db task_id status vm).1.vms = db.vms) ∧
      (∀ (v : String), v ≠ "" → ∀ t ∈ db.tasks, t.id = task_id →
        { t with status := status, vm_id := some v }
          ∈ (update_task_status db task_id status (some v)).1.tasks) := by
  intro db task_id status vm hvm
  have hfalsy : vmIdTruthy vm = false := by
    rcases hvm with h | h <;> simp [h, vmIdTruthy]
  refine ⟨⟨?_, ?_, ?_, ?_⟩, ?_⟩
  · intro t ht hid
    simp only [update_task_status, hfalsy, Bool.false_eq_true, if_false]
    exact List.mem_map.mpr ⟨t, ht, by simp [hid]⟩
  · intro t ht hid
    simp only [update_task_status, hfalsy, Bool.false_eq_true, if_false]
    refine List.mem_map.mpr ⟨t, ht, ?_⟩
    have : (t.id == task_id) = false := beq_eq_false_iff_ne.mpr hid
    simp [this]
  · simp only [update_task_status, hfalsy, Bool.false_eq_true, if_false]
  · simp only [update_task_status, hfalsy, Bool.false_eq_true, if_false]
  · intro v hv t ht hid
    have htrue : vmIdTruthy (some v) = true := by
      simp [vmIdTruthy, hv]
    simp only [update_task_status, htrue, if_true]
    exact List.mem_map.mpr ⟨t, ht, by simp [hid]⟩

/-- C10 (witness): the frame theorem applied on a one-task store with
`vm_id = none`. -/
theorem c10_update_status_frame_witness :
    { pendingTask "t1" 1 0 with status := "running" } ∈
      (update_task_status c1db "t1" "running" none).1.tasks :=
  (c10_update_status_frame c1db "t1" "running" none (Or.inl rfl)).1.1
    (pendingTask "t1" 1 0) (by decide) rfl

/-- C7: cleanup never deletes a `pending`/`assigned`/`running` task, whatever
its age; a task in a terminal status (`completed`, `failed`, `timeout`) whose
`created_at` lies before the retention cutoff is removed, and every result
row referencing it is removed with it. -/
theorem c7_cleanup_safety :
    ∀ (db : DB) (cutoff : Nat) (vmc : String), ∀ t ∈ db.tasks,
      ((t.status = "pending" ∨ t.status = "assigned" ∨ t.status = "running") →
        t ∈ (cleanup_old_data db cutoff vmc).tasks) ∧
      (isTerminal t.status = true → t.created_at < cutoff →
        t ∉ (cleanup_old_data db cutoff vmc).tasks ∧
        ∀ r ∈ db.results, r.task_id = t.id →
          r ∉ (cleanup_old_data db cutoff vmc).results) := by
  intro db cutoff vmc t ht
  constructor
  · intro hst
    have hterm : isTerminal t.status = false := by
      rcases hst with h | h | h <;> simp [isTerminal, h]
    simp only [cleanup_old_data]
    exact List.mem_filter.mpr ⟨ht, by simp [hterm]⟩
  · intro hterm hold
    have hin : t.id ∈ ((db.tasks.filter fun u =>
        isTerminal u.status && decide (u.created_at < cutoff)).map fun u => u.id) :=
      List.mem_map.mpr ⟨t, List.mem_filter.mpr ⟨ht, by simp [hterm, hold]⟩, rfl⟩
    constructor
    · intro hmem
      simp only [cleanup_old_data] at hmem
      have h2 := (List.mem_filter.mp hmem).2
      simp [hterm, hold] at h2
    · intro r hr hrt hmem
      simp only [cleanup_old_data] at hmem
      have h2 := (List.mem_filter.mp hmem).2
      rw [hrt] at h2
      simp only [Bool.not_eq_true', decide_eq_false_iff_not] at h2
      exact h2 hin

/-- C7 (witness): on the fixture store, the pending task survives a cleanup
with cutoff 5 while the old completed task and its result are both removed. -/
theorem c7_cleanup_safety_witness :
    c7pending ∈ (cleanup_old_data c7db 5 "v").tasks ∧
    c7old ∉ (cleanup_old_data c7db 5 "v").tasks ∧
    storedResult "old" "out" "completed" 1 ∉ (cleanup_old_data c7db 5 "v").results := by
  refine ⟨?_, ?_, ?_⟩
  · exact (c7_cleanup_safety c7db 5 "v" c7pending (by decide)).1 (Or.inl rfl)
  · exact ((c7_cleanup_safety c7db 5 "v" c7old (by decide)).2 (by decide) (by decide)).1
  · exact ((c7_cleanup_safety c7db 5 "v" c7old (by decide)).2 (by decide) (by decide)).2
      (storedResult "old" "out" "completed" 1) (by decide) rfl

theorem submitLoop_attempts_le (rd : Nat) (resp : Nat → Bool) :
    ∀ (fuel attempt : Nat), (submitLoop rd resp attempt fuel).attempts ≤ fuel := by
  intro fuel
  induction fuel with
  | zero => intro attempt; simp [submitLoop]
  | succ f ih =>
    intro attempt
    by_cases h : resp attempt = true
    · simp [submitLoop, h]
    · by_cases hf : f = 0
      · simp [submitLoop, h, hf]
      · have hih := ih (attempt + 1)
        simp [submitLoop, if_neg h, if_neg hf]
        omega

theorem submitLoop_delays_head (rd : Nat) (resp : Nat → Bool) (attempt fuel : Nat) :
    (submitLoop rd resp attempt fuel).delays = [] ∨
    ∃ l, (submitLoop rd resp attempt fuel).delays = rd * (attempt + 1) :: l := by
  cases fuel with
  | zero => left; rfl
  | succ f =>
    by_cases h : resp attempt = true
    · left; simp [submitLoop, h]
    · by_cases hf : f = 0
      · left; simp [submitLoop, h, hf]
      · right
        refine ⟨(submitLoop rd resp (attempt + 1) f).delays, ?_⟩
        simp only [submitLoop, if_neg h, if_neg hf]

theorem submitLoop_delays_chain (rd : Nat) (resp : Nat → Bool) :
    ∀ (fuel attempt : Nat), List.Chain' (· ≤ ·) (submitLoop rd resp attempt fuel).delays := by
  intro fuel
  induction fuel with
  | zero => intro attempt; simp [submitLoop]
  | succ f ih =>
    intro attempt
    by_cases h : resp attempt = true
    · simp [submitLoop, h]
    · by_cases hf : f = 0
      · simp [submitLoop, h, hf]
      · simp only [submitLoop, if_neg h, if_neg hf]
        rcases submitLoop_delays_head rd resp (attempt + 1) f with he | ⟨l, he⟩
        · rw [he]
          simp
        · rw [he]
          refine List.chain'_cons.mpr ⟨?_, ?_⟩
          · have : rd * (attempt + 1) ≤ rd * (attempt + 1 + 1) :=
              Nat.mul_le_mul_left rd (by omega)
            simpa using this
          · rw [← he]
            exact ih (attempt + 1)

/-- C8: `_submit_result` makes at most `max_retries` POST attempts; the sleeps
before successive retries follow the non-decreasing schedule
`retry_delay * (attempt + 1)`; with two failed attempts followed by a success
the call succeeds on the third attempt after delays `[2, 4]`; and when every
attempt fails the call raises (`ok = false`) but the poll loop catches it:
the iteration keeps `is_polling` and merely abandons the task. -/
theorem c8_submit_retries :
    (∀ (mr rd : Nat) (resp : Nat → Bool), (submit_result mr rd resp).attempts ≤ mr) ∧
    (∀ (mr rd : Nat) (resp : Nat → Bool),
      List.Chain' (· ≤ ·) (submit_result mr rd resp).delays) ∧
    submit_result 3 2 (fun n => decide (2 ≤ n)) = ⟨3, [2, 4], true⟩ ∧
    submit_result 3 2 (fun _ => false) = ⟨3, [2, 4], false⟩ ∧
    (∀ (st : PollerState) (task : TaskInfo) (tr : SubmitTrace),
      (poll_iteration st task tr).is_polling = st.is_polling ∧
      (poll_iteration st task tr).current_task = none) := by
  refine ⟨fun mr rd resp => submitLoop_attempts_le rd resp mr 0,
          fun mr rd resp => submitLoop_delays_chain rd resp mr 0,
          by decide, by decide,
          fun st task tr => ?_⟩
  by_cases h : tr.ok = true <;> simp [poll_iteration, h]

/-- C9 (counterexample): the claim says the reported average execution time
is the mean over completed results.  On a store whose only result has status
`failed` with `execution_time = 2` there is no completed result (the
spec-side mean is 0), yet the code reports 2: it averages over
`execution_time > 0` regardless of status. -/
theorem c9_avg_counterexample :
    (get_queue_stats c9db "t0").avg_execution_time = 2 ∧
    specAvgCompleted c9db = 0 ∧
    (get_queue_stats c9db "t0").avg_execution_time ≠ specAvgCompleted c9db := by
  have h1 : (get_queue_stats c9db "t0").avg_execution_time = 2 := by
    simp [get_queue_stats, c9db, storedResult]
  have h2 : specAvgCompleted c9db = 0 := by
    simp [specAvgCompleted, c9db, storedResult]
  refine ⟨h1, h2, ?_⟩
  rw [h1, h2]
  norm_num

/-- C9 (amended): `get_queue_stats` is total and on the empty store returns
the all-zero aggregate; it counts workers seen strictly within the liveness
window; and its average execution time is the mean of `execution_time` over
the results with positive execution time, regardless of their status (not the
mean over completed results). -/
theorem c9_stats_amended :
    (∀ (cut : String), get_queue_stats emptyDB cut =
      { pending_tasks := 0, assigned_tasks := 0, running_tasks := 0,
        completed_tasks := 0, failed_tasks := 0, active_vms := 0,
        avg_execution_time := 0 }) ∧
    (∀ (db : DB) (cut : String),
      (get_queue_stats db cut).pending_tasks = statusCount db "pending" ∧
      (get_queue_stats db cut).assigned_tasks = statusCount db "assigned" ∧
      (get_queue_stats db cut).running_tasks = statusCount db "running" ∧
      (get_queue_stats db cut).completed_tasks = statusCount db "completed" ∧
      (get_queue_stats db cut).failed_tasks = statusCount db "failed" ∧
      (get_queue_stats db cut).active_vms = activeWorkerCount db cut ∧
      (get_queue_stats db cut).avg_execution_time = specAvgPositive db) := by
  constructor
  · intro cut
    rfl
  · intro db cut
    refine ⟨?_, ?_, ?_, ?_, ?_, ?_, ?_⟩ <;>
      simp [get_queue_stats, statusCount, activeWorkerCount, specAvgPositive,
            List.countP_eq_length_filter]

/-- C6 (counterexample): on the claim's own example, a stored result whose
output is `"hello\nGIF_OUTPUT:\x7b\"a\":1\x7d\nbye"` and an empty worker
filesystem, `GET /results/t6` succeeds and echoes the output verbatim but
attaches NO `video_data` field at all (the payload names no existing gif file
and carries no `gif_data`), contradicting the claimed extracted field
`\x7ba:1\x7d`. -/
theorem c6_marker_extraction_counterexample :
    ((get_result_ep (c6db c6out) [] "t6").map fun r => r.video_data) = some none ∧
    ((get_result_ep (c6db c6out) [] "t6").map fun r => r.row.output) = some c6out := by
  exact ⟨rfl, rfl⟩

/-- C6 (amended): result retrieval always echoes the stored output verbatim;
the broker scans for the FIRST (not last) `GIF_OUTPUT` marker and attaches
`video_data` only when the payload names an existing gif file or itself
carries `gif_data` — an incidental payload like `\x7b"a":1\x7d` yields no
field and no error, exactly like malformed JSON; with two `gif_data` markers
the broker keeps the first payload; the worker-side parser, by contrast, does
extract `\x7ba:1\x7d` from the example output (merging every marker line in
order). -/
theorem c6_marker_extraction_amended :
    (∀ (db : DB) (fs : FileSys) (tid : String),
      ((get_result_ep db fs tid).map fun r => r.row.output) =
        (get_result_db db tid).map fun r => r.output) ∧
    brokerVideoData [] c6out = none ∧
    (brokerVideoData [] c6badOut = none ∧
      ((get_result_ep (c6db c6badOut) [] "t6").map fun r => r.row.output) =
        some c6badOut) ∧
    brokerVideoData [] c6doubleOut = some (Json.obj [("gif_data", Json.str "X")]) ∧
    parse_video_output [] c6out = [("a", Json.num 1)] := by
  refine ⟨?_, ?_, ⟨?_, ?_⟩, ?_, ?_⟩
  · intro db fs tid
    cases h : get_result_db db tid <;> simp [get_result_ep, h]
  · rfl
  · rfl
  · rfl
  · rfl
  · rfl

theorem add_result_results_key (db : DB) (r : ResultSub) :
    ((add_result db r).1.results.filter fun x => x.id == r.id) = [mkResultRow r] := by
  simp only [add_result, List.filter_append, List.filter_filter]
  have h : ∀ x : ResultRow, ((x.id == r.id) && !(x.id == r.id)) = false := by
    intro x
    cases hx : x.id == r.id <;> simp [hx]
  simp [h, mkResultRow]

theorem add_result_get (db : DB) (r : ResultSub)
    (hwk : ∀ x ∈ db.results, x.task_id = x.id) :
    get_result_db (add_result db r).1 r.id = some (mkResultRow r) := by
  simp only [get_result_db, add_result, List.filter_append]
  have h1 : ((db.results.filter fun x => !(x.id == r.id)).filter
      fun x => x.task_id == r.id) = [] := by
    rw [List.filter_eq_nil_iff]
    intro a ha
    have hane := (List.mem_filter.mp ha).2
    have haid : a.id ≠ r.id := by simpa using hane
    have := hwk a (List.mem_filter.mp ha).1
    simp [this, haid]
  rw [h1]
  simp [mkResultRow]

theorem add_result_task_updated (db : DB) (r : ResultSub) (t : TaskRow)
    (ht : t ∈ db.tasks) (hid : t.id = r.id) :
    { t with status := r.status } ∈ (add_result db r).1.tasks := by
  simp only [add_result]
  exact List.mem_map.mpr ⟨t, ht, by simp [hid]⟩

theorem add_result_task_frame (db : DB) (r : ResultSub) (t : TaskRow)
    (ht : t ∈ db.tasks) (hid : t.id ≠ r.id) :
    t ∈ (add_result db r).1.tasks := by
  simp only [add_result]
  refine List.mem_map.mpr ⟨t, ht, ?_⟩
  have h : (t.id == r.id) = false := beq_eq_false_iff_ne.mpr hid
  simp [h]

theorem add_result_result_frame (db : DB) (r : ResultSub) (x : ResultRow)
    (hx : x ∈ db.results) (hid : x.id ≠ r.id) :
    x ∈ (add_result db r).1.results := by
  simp only [add_result]
  apply List.mem_append_left
  exact List.mem_filter.mpr ⟨hx, by simp [hid]⟩

theorem add_result_wellKeyed (db : DB) (r : ResultSub)
    (hwk : ∀ x ∈ db.results, x.task_id = x.id) :
    ∀ x ∈ (add_result db r).1.results, x.task_id = x.id := by
  intro x hx
  simp only [add_result] at hx
  rcases List.mem_append.mp hx with h | h
  · exact hwk x (List.mem_filter.mp h).1
  · rw [List.mem_singleton.mp h]
    rfl

theorem add_result_task_exists (db : DB) (r : ResultSub) (tid : String)
    (h : ∃ t ∈ db.tasks, t.id = tid) :
    ∃ t ∈ (add_result db r).1.tasks, t.id = tid := by
  rcases h with ⟨t, ht, htid⟩
  by_cases hid : t.id = r.id
  · exact ⟨{ t with status := r.status }, add_result_task_updated db r t ht hid, htid⟩
  · exact ⟨t, add_result_task_frame db r t ht hid, htid⟩

theorem add_result_fold_lemma :
    ∀ (rs : List ResultSub) (db : DB) (tid : String) (last : ResultSub),
    rs.getLast? = some last →
    (∀ q ∈ rs, q.id = tid) →
    (∃ t ∈ db.tasks, t.id = tid) →
    (∀ x ∈ db.results, x.task_id = x.id) →
    get_result_db (rs.foldl (fun d q => (add_result d q).1) db) tid =
        some (mkResultRow last) ∧
    ∃ u ∈ (rs.foldl (fun d q => (add_result d q).1) db).tasks,
        u.id = tid ∧ u.status = last.status := by
  intro rs
  induction rs with
  | nil =>
    intro db tid last hlast
    simp at hlast
  | cons q rs' ih =>
    intro db tid last hlast hids hex hwk
    cases rs' with
    | nil =>
      have hq : q = last := by simpa using hlast
      subst hq
      have hqid : q.id = tid := hids q (List.mem_cons_self q [])
      rw [List.foldl_cons, List.foldl_nil]
      constructor
      · rw [← hqid]
        exact add_result_get db q hwk
      · rcases hex with ⟨t, ht, htid⟩
        refine ⟨{ t with status := q.status },
          add_result_task_updated db q t ht (by rw [htid, hqid]), by simpa using htid, rfl⟩
    | cons q2 rs'' =>
      have hlast2 : (q2 :: rs'').getLast? = some last := by
        rw [← hlast]
        exact List.getLast?_cons_cons.symm
      rw [List.foldl_cons]
      exact ih (add_result db q).1 tid last hlast2
        (fun q' hq' => hids q' (List.mem_cons_of_mem q hq'))
        (add_result_task_exists db q tid hex)
        (add_result_wellKeyed db q hwk)

/-- C3: for a submission whose referenced task exists, `add_result` upserts
the result keyed by the task id (afterwards exactly one stored result carries
that id, and it is the new one), retrieval returns the freshly stored row, the
parent task's status becomes the submitted status while every other task and
result row is untouched, and the call reports success; moreover, after any
non-empty sequence of submissions for an existing task, the stored result is
the most recent submission's row and the task's status equals that
submission's status. -/
theorem c3_add_result_upsert :
    (∀ (db : DB) (r : ResultSub) (t : TaskRow),
      t ∈ db.tasks → t.id = r.id →
      (∀ x ∈ db.results, x.task_id = x.id) →
      ((add_result db r).1.results.filter fun x => x.id == r.id) = [mkResultRow r] ∧
      get_result_db (add_result db r).1 r.id = some (mkResultRow r) ∧
      (mkResultRow r).status = r.status ∧
      { t with status := r.status } ∈ (add_result db r).1.tasks ∧
      (∀ u ∈ db.tasks, u.id ≠ r.id → u ∈ (add_result db r).1.tasks) ∧
      (∀ x ∈ db.results, x.id ≠ r.id → x ∈ (add_result db r).1.results) ∧
      (add_result db r).2 = true) ∧
    (∀ (rs : List ResultSub) (db : DB) (tid : String) (last : ResultSub),
      rs.getLast? = some last →
      (∀ q ∈ rs, q.id = tid) →
      (∃ t ∈ db.tasks, t.id = tid) →
      (∀ x ∈ db.results, x.task_id = x.id) →
      get_result_db (rs.foldl (fun d q => (add_result d q).1) db) tid =
          some (mkResultRow last) ∧
      ∃ u ∈ (rs.foldl (fun d q => (add_result d q).1) db).tasks,
          u.id = tid ∧ u.status = last.status) := by
  constructor
  · intro db r t ht hid hwk
    exact ⟨add_result_results_key db r, add_result_get db r hwk, rfl,
      add_result_task_updated db r t ht hid,
      fun u hu hne => add_result_task_frame db r u hu hne,
      fun x hx hne => add_result_result_frame db r x hx hne, rfl⟩
  · exact add_result_fold_lemma

/-- C3 (witness): both parts applied on a one-task store — a single
submission, and a failed submission overwritten by a completed one. -/
theorem c3_add_result_upsert_witness :
    (((add_result c3db (c3sub "completed" 2)).1.results.filter
        fun x => x.id == (c3sub "completed" 2).id) = [mkResultRow (c3sub "completed" 2)] ∧
      get_result_db (add_result c3db (c3sub "completed" 2)).1 (c3sub "completed" 2).id =
        some (mkResultRow (c3sub "completed" 2)) ∧
      (mkResultRow (c3sub "completed" 2)).status = (c3sub "completed" 2).status ∧
      { c3task with status := (c3sub "completed" 2).status }
        ∈ (add_result c3db (c3sub "completed" 2)).1.tasks ∧
      (∀ u ∈ c3db.tasks, u.id ≠ (c3sub "completed" 2).id →
        u ∈ (add_result c3db (c3sub "completed" 2)).1.tasks) ∧
      (∀ x ∈ c3db.results, x.id ≠ (c3sub "completed" 2).id →
        x ∈ (add_result c3db (c3sub "completed" 2)).1.results) ∧
      (add_result c3db (c3sub "completed" 2)).2 = true) ∧
    (get_result_db ([c3sub "failed" 1, c3sub "completed" 2].foldl
        (fun d q => (add_result d q).1) c3db) "t3" =
      some (mkResultRow (c3sub "completed" 2)) ∧
     ∃ u ∈ ([c3sub "failed" 1, c3sub "completed" 2].foldl
        (fun d q => (add_result d q).1) c3db).tasks,
       u.id = "t3" ∧ u.status = (c3sub "completed" 2).status) := by
  constructor
  · exact c3_add_result_upsert.1 c3db (c3sub "completed" 2) c3task (by decide) rfl
      (by intro x hx; simp [c3db] at hx)
  · exact c3_add_result_upsert.2 [c3sub "failed" 1, c3sub "completed" 2] c3db "t3"
      (c3sub "completed" 2) rfl (by decide) ⟨c3task, by decide, rfl⟩
      (by intro x hx; simp [c3db] at hx)

theorem betterTask_true_iff (a b : TaskRow) :
    betterTask a b = true ↔
      b.priority < a.priority ∨ (a.priority = b.priority ∧ a.created_at < b.created_at) := by
  simp [betterTask]

theorem betterTask_false_iff (a b : TaskRow) :
    betterTask a b = false ↔
      ¬(b.priority < a.priority ∨ (a.priority = b.priority ∧ a.created_at < b.created_at)) := by
  rw [← betterTask_true_iff]
  cases h : betterTask a b <;> simp [h]

theorem betterTask_irrefl (a : TaskRow) : betterTask a a = false := by
  rw [betterTask_false_iff]
  omega

theorem betterTask_asymm (a b : TaskRow) (h : betterTask a b = true) :
    betterTask b a = false := by
  rw [betterTask_true_iff] at h
  rw [betterTask_false_iff]
  omega

theorem betterTask_ge_trans (a b c : TaskRow)
    (h1 : betterTask a b = false) (h2 : betterTask b c = false) :
    betterTask a c = false := by
  rw [betterTask_false_iff] at h1 h2 ⊢
  omega

theorem betterTask_total_of_ne_created (a b : TaskRow)
    (hca : a.created_at ≠ b.created_at) (h : betterTask a b = false) :
    betterTask b a = true := by
  rw [betterTask_false_iff] at h
  rw [betterTask_true_iff]
  omega

theorem pickBetter_cases (acc : Option TaskRow) (t : TaskRow) :
    pickBetter acc t = acc ∨ (pickBetter acc t = some t ∧ t.status = "pending") := by
  unfold pickBetter
  by_cases hp : (t.status == "pending") = true
  · rw [if_pos hp]
    cases acc with
    | none => exact Or.inr ⟨rfl, by simpa using hp⟩
    | some b =>
      dsimp only
      by_cases hbt : betterTask t b = true
      · rw [if_pos hbt]
        exact Or.inr ⟨rfl, by simpa using hp⟩
      · rw [if_neg hbt]
        exact Or.inl rfl
  · rw [if_neg hp]
    exact Or.inl rfl

theorem pickBetter_none (acc : Option TaskRow) (t : TaskRow)
    (h : pickBetter acc t = none) :
    acc = none ∧ (t.status == "pending") = false := by
  unfold pickBetter at h
  by_cases hp : (t.status == "pending") = true
  · rw [if_pos hp] at h
    cases acc with
    | none => cases h
    | some b =>
      dsimp only at h
      by_cases hbt : betterTask t b = true
      · rw [if_pos hbt] at h
        cases h
      · rw [if_neg hbt] at h
        cases h
  · rw [if_neg hp] at h
    exact ⟨h, by simpa using hp⟩

theorem pickBetter_step_ge (a : TaskRow) (t : TaskRow) (c : TaskRow)
    (h : pickBetter (some a) t = some c) : betterTask a c = false := by
  unfold pickBetter at h
  by_cases hp : (t.status == "pending") = true
  · rw [if_pos hp] at h
    dsimp only at h
    by_cases hbt : betterTask t a = true
    · rw [if_pos hbt] at h
      injection h with h
      rw [← h]
      exact betterTask_asymm t a hbt
    · rw [if_neg hbt] at h
      injection h with h
      rw [← h]
      exact betterTask_irrefl a
  · rw [if_neg hp] at h
    injection h with h
    rw [← h]
    exact betterTask_irrefl a

theorem pickBetter_pending_ge (acc : Option TaskRow) (t : TaskRow)
    (hp : (t.status == "pending") = true) :
    ∃ c, pickBetter acc t = some c ∧ betterTask t c = false := by
  unfold pickBetter
  rw [if_pos hp]
  cases acc with
  | none => exact ⟨t, rfl, betterTask_irrefl t⟩
  | some b =>
    dsimp only
    by_cases hbt : betterTask t b = true
    · rw [if_pos hbt]
      exact ⟨t, rfl, betterTask_irrefl t⟩
    · rw [if_neg hbt]
      exact ⟨b, rfl, by simpa using hbt⟩

theorem foldl_pickBetter_some_mem :
    ∀ (ts : List TaskRow) (acc : Option TaskRow) (b : TaskRow),
    ts.foldl pickBetter acc = some b →
    acc = some b ∨ (b ∈ ts ∧ b.status = "pending") := by
  intro ts
  induction ts with
  | nil =>
    intro acc b h
    exact Or.inl h
  | cons t ts' ih =>
    intro acc b h
    rw [List.foldl_cons] at h
    rcases ih (pickBetter acc t) b h with h1 | ⟨hmem, hpend⟩
    · rcases pickBetter_cases acc t with h2 | ⟨h2, hp⟩
      · rw [h2] at h1
        exact Or.inl h1
      · rw [h2] at h1
        injection h1 with h1
        refine Or.inr ⟨?_, ?_⟩
        · rw [← h1]; exact List.mem_cons_self t ts'
        · rw [← h1]; exact hp
    · exact Or.inr ⟨List.mem_cons_of_mem t hmem, hpend⟩

theorem foldl_pickBetter_none :
    ∀ (ts : List TaskRow) (acc : Option TaskRow),
    ts.foldl pickBetter acc = none →
    acc = none ∧ ∀ t ∈ ts, (t.status == "pending") = false := by
  intro ts
  induction ts with
  | nil =>
    intro acc h
    exact ⟨h, by simp⟩
  | cons t ts' ih =>
    intro acc h
    rw [List.foldl_cons] at h
    rcases ih (pickBetter acc t) h with ⟨hstep, hall⟩
    rcases pickBetter_none acc t hstep with ⟨hacc, hnp⟩
    refine ⟨hacc, ?_⟩
    intro u hu
    rcases List.mem_cons.mp hu with h | h
    · rw [h]; exact hnp
    · exact hall u h

theorem foldl_pickBetter_ge_acc :
    ∀ (ts : List TaskRow) (a b : TaskRow),
    ts.foldl pickBetter (some a) = some b → betterTask a b = false := by
  intro ts
  induction ts with
  | nil =>
    intro a b h
    injection h with h
    rw [← h]
    exact betterTask_irrefl a
  | cons t ts' ih =>
    intro a b h
    rw [List.foldl_cons] at h
    cases hstep : pickBetter (some a) t with
    | none =>
      rcases pickBetter_none (some a) t hstep with ⟨hc, _⟩
      cases hc
    | some c =>
      rw [hstep] at h
      exact betterTask_ge_trans a c b (pickBetter_step_ge a t c hstep) (ih c b h)

theorem foldl_pickBetter_opt :
    ∀ (ts : List TaskRow) (acc : Option TaskRow) (b u : TaskRow),
    u ∈ ts → (u.status == "pending") = true →
    ts.foldl pickBetter acc = some b → betterTask u b = false := by
  intro ts
  induction ts with
  | nil =>
    intro acc b u hu
    cases hu
  | cons t ts' ih =>
    intro acc b u hu hp h
    rw [List.foldl_cons] at h
    rcases List.mem_cons.mp hu with he | he
    · subst he
      rcases pickBetter_pending_ge acc u hp with ⟨c, hc, hge⟩
      rw [hc] at h
      exact betterTask_ge_trans u c b hge (foldl_pickBetter_ge_acc ts' c b h)
    · exact ih (pickBetter acc t) b u he hp h

theorem selectNextPending_spec (tasks : List TaskRow)
    (hex : ∃ t ∈ tasks, t.status = "pending") :
    ∃ b, selectNextPending tasks = some b ∧ b ∈ tasks ∧ b.status = "pending" ∧
      ∀ u ∈ tasks, u.status = "pending" → betterTask u b = false := by
  cases h : selectNextPending tasks with
  | none =>
    rcases hex with ⟨t, ht, hp⟩
    have h' : tasks.foldl pickBetter none = none := h
    rcases foldl_pickBetter_none tasks none h' with ⟨_, hall⟩
    have hcontra := hall t ht
    rw [hp] at hcontra
    simp at hcontra
  | some b =>
    have h' : tasks.foldl pickBetter none = some b := h
    rcases foldl_pickBetter_some_mem tasks none b h' with h1 | ⟨hmem, hpend⟩
    · cases h1
    · refine ⟨b, rfl, hmem, hpend, ?_⟩
      intro u hu hup
      exact foldl_pickBetter_opt tasks none b u hu (by simp [hup]) h'

/-- C2: whenever a pending task exists, `get_next_task` returns the pending
task with the highest priority, ties broken by earliest creation, and
transitions exactly that task to `assigned` with the caller's `vm_id` and the
current time as `assigned_at`, leaving every other task untouched; on
priorities [1, 5, 3] submitted as A, B, C the successive claims return B,
then C, then A; and two equal-priority tasks are claimed in submission
order. -/
theorem c2_claim_priority_fifo :
    (∀ (db : DB) (vm now : String),
      (db.tasks.map fun t => t.id).Nodup →
      (db.tasks.map fun t => t.created_at).Nodup →
      (∃ t ∈ db.tasks, t.status = "pending") →
      ∃ b ∈ db.tasks, b.status = "pending" ∧
        (∀ u ∈ db.tasks, u.status = "pending" → u = b ∨ betterTask b u = true) ∧
        (get_next_task db vm now).1 = some (taskInfo b) ∧
        { b with status := "assigned", vm_id := some vm, assigned_at := some now }
          ∈ (get_next_task db vm now).2.tasks ∧
        (∀ u ∈ db.tasks, u ≠ b → u ∈ (get_next_task db vm now).2.tasks)) ∧
    ((get_next_task c2db3 "w" "n1").1 = some (taskInfo (pendingTask "B" 5 1)) ∧
     (get_next_task (get_next_task c2db3 "w" "n1").2 "w" "n2").1 =
        some (taskInfo (pendingTask "C" 3 2)) ∧
     (get_next_task (get_next_task (get_next_task c2db3 "w" "n1").2 "w" "n2").2
        "w" "n3").1 = some (taskInfo (pendingTask "A" 1 0))) ∧
    ((get_next_task c2fifo "w" "n1").1 = some (taskInfo (pendingTask "D" 1 0)) ∧
     (get_next_task (get_next_task c2fifo "w" "n1").2 "w" "n2").1 =
        some (taskInfo (pendingTask "E" 1 1))) := by
  refine ⟨?_, by decide, by decide⟩
  intro db vm now hids hcas hex
  rcases selectNextPending_spec db.tasks hex with ⟨b, hsel, hmem, hpend, hopt⟩
  refine ⟨b, hmem, hpend, ?_, ?_, ?_, ?_⟩
  · intro u hu hup
    by_cases he : u = b
    · exact Or.inl he
    · right
      have hca : u.created_at ≠ b.created_at := by
        intro heq
        exact he (List.inj_on_of_nodup_map hcas hu hmem heq)
      exact betterTask_total_of_ne_created u b hca (hopt u hu hup)
  · simp only [get_next_task, hsel]
    rfl
  · simp only [get_next_task, hsel, execUpdateAssign, execInsertVmStatus]
    refine List.mem_map.mpr ⟨b, hmem, ?_⟩
    have h2 : (b.status == "pending") = true := by simp [hpend]
    simp [h2]
  · intro u hu hne
    have hneid : u.id ≠ b.id := fun heq =>
      hne (List.inj_on_of_nodup_map hids hu hmem heq)
    simp only [get_next_task, hsel, execUpdateAssign, execInsertVmStatus]
    refine List.mem_map.mpr ⟨u, hu, ?_⟩
    have h3 : (u.id == b.id) = false := beq_eq_false_iff_ne.mpr hneid
    simp [h3]

/-- C2 (witness): the general part applied to the three-task store with
priorities [1, 5, 3]. -/
theorem c2_claim_priority_fifo_witness :
    ∃ b ∈ c2db3.tasks, b.status = "pending" ∧
      (∀ u ∈ c2db3.tasks, u.status = "pending" → u = b ∨ betterTask b u = true) ∧
      (get_next_task c2db3 "w" "n1").1 = some (taskInfo b) ∧
      { b with status := "assigned", vm_id := some "w", assigned_at := some "n1" }
        ∈ (get_next_task c2db3 "w" "n1").2.tasks ∧
      (∀ u ∈ c2db3.tasks, u ≠ b → u ∈ (get_next_task c2db3 "w" "n1").2.tasks) :=
  c2_claim_priority_fifo.1 c2db3 "w" "n1" (by decide) (by decide)
    ⟨pendingTask "A" 1 0, by decide, rfl⟩

end MsgQueue
